import Mathlib

/-!
Verification of `generate_calendars.py`.

A shallow embedding of the parsing core of `generate_calendars.py`:
text normalization (`clean`), header-block detection with year tracking,
event extraction, time-range parsing, calendar emission (uids, slugs)
and the index page, together with theorems settling the specification
claims about them.

Grids are `List (List String)` (rows of cells), dates are triples of
naturals, and the mutable state of the Python script (month sequence,
year map, current year, active blocks) is threaded explicitly.
-/

set_option autoImplicit false

/-! ## Text normalization (`clean`, lines 27-30) -/

/-- Whitespace as recognized by Python's `str.strip()` and the regex class
`\s` on `str`, restricted to the whitespace characters exercised in this
development (ASCII whitespace, NBSP, ideographic space). -/
def pySpace (c : Char) : Bool :=
  c == ' ' || c == '\t' || c == '\n' || c == '\r' || c == '\x0b' ||
    c == '\x0c' || c == '\u00A0' || c == '\u3000'

/-- Python `str.strip()`: drop leading and trailing whitespace. -/
def stripL (l : List Char) : List Char :=
  ((l.dropWhile pySpace).reverse.dropWhile pySpace).reverse

/-- The NFKC normalization of a single character, as performed by
`unicodedata.normalize("NFKC", ·)`, restricted to the Unicode
compatibility mappings of the characters exercised in this development
(all other characters are NFKC-fixed points here).  On these characters
NFKC acts pointwise, so mapping it over a string is exact.
Notably U+00A8 (diaeresis) and U+00B4 (acute accent) decompose to a
*space* followed by a combining mark. -/
def nfkcChar (c : Char) : List Char :=
  if c = '\u00A8' then [' ', '\u0308']
  else if c = '\u00B4' then [' ', '\u0301']
  else if c = '\u00A0' then [' ']
  else if c = '\u3000' then [' ']
  else if c = '：' then [':']
  else if c = '～' then ['~']
  else [c]

/-- NFKC normalization of a character list. -/
def nfkcL (l : List Char) : List Char := (l.map nfkcChar).flatten

/-- Worker for `re.sub(r"\s+", " ", ·)`: replace each maximal run of
whitespace by a single ASCII space.  `prevSpace` records whether the
previous character was part of a whitespace run already replaced. -/
def collapseGo (prevSpace : Bool) : List Char → List Char
  | [] => []
  | c :: cs =>
    if pySpace c then
      if prevSpace then collapseGo true cs
      else ' ' :: collapseGo true cs
    else c :: collapseGo false cs

/-- Model of `re.sub(r"\s+", " ", ·)` on a character list. -/
def collapseL (l : List Char) : List Char := collapseGo false l

/-- Body of `clean` on a character list: strip, NFKC, collapse whitespace. -/
def cleanL (l : List Char) : List Char := collapseL (nfkcL (stripL l))

/-- Function `clean` (lines 27-30): `re.sub(r"\s+", " ",
unicodedata.normalize("NFKC", text.strip()))`.  (The non-string branch
coerces by `str(·)` first; inputs here are already strings.) -/
def clean (s : String) : String := ⟨cleanL s.data⟩

/-! ## Time-range extraction (lines 32-46) -/

/-- Function `normalize_time_string` (lines 32-36): NFKC, then the dash-like
glyphs `〜 ～ – — ~` to `-`, then full-width colon to `:`. -/
def normalize_time_string (s : String) : String :=
  ⟨((nfkcL s.data).map fun c =>
      if c = '〜' || c = '～' || c = '–' || c = '—' || c = '~' then '-' else c).map
    fun c => if c = '：' then ':' else c⟩

/-- The candidate matches of the greedy `\d{1,2}` at the head of `l`,
in backtracking order (two digits preferred), each with the rest of
the input. -/
def hhAlts : List Char → List (List Char × List Char)
  | [] => []
  | [a] => if a.isDigit then [([a], [])] else []
  | a :: b :: rest =>
    (if a.isDigit && b.isDigit then [([a, b], rest)] else []) ++
      (if a.isDigit then [([a], b :: rest)] else [])

/-- Match `:\d{2}` at the head of `l`, returning matched chars and rest. -/
def colonMM : List Char → Option (List Char × List Char)
  | c :: d :: e :: rest =>
    if c = ':' && d.isDigit && e.isDigit then some ([c, d, e], rest) else none
  | _ => none

/-- Match the group `(\d{1,2}:\d{2})` at the head of `l`, with the
backtracking behaviour of Python's `re` (greedy hour, then `:`). -/
def matchHHMM (l : List Char) : Option (List Char × List Char) :=
  (hhAlts l).findSome? fun p =>
    (colonMM p.2).map fun q => (p.1 ++ q.1, q.2)

/-- Skip a single optional `(` (the greedy `\(?`; if the rest fails to
match, the empty alternative also fails since `(` is not a digit). -/
def dropParen : List Char → List Char
  | '(' :: rest => rest
  | l => l

/-- Try `\(?(\d{1,2}:\d{2})\s*[-]\s*(\d{1,2}:\d{2})\)?` anchored at the
head of `l`, returning the two groups.  The greedy `\s*` before `[-]`
is equivalent to skipping all whitespace since `-` is not whitespace. -/
def p1At (l : List Char) : Option (String × String) :=
  let l := dropParen l
  (matchHHMM l).bind fun p =>
    match p.2.dropWhile pySpace with
    | '-' :: rest =>
      (matchHHMM (rest.dropWhile pySpace)).map fun q => (⟨p.1⟩, ⟨q.1⟩)
    | _ => none

/-- Try `\(?(\d{1,2})\s*[-]\s*(\d{1,2})\)?` anchored at the head of `l`. -/
def p2At (l : List Char) : Option (String × String) :=
  let l := dropParen l
  (hhAlts l).findSome? fun p =>
    match p.2.dropWhile pySpace with
    | '-' :: rest =>
      ((hhAlts (rest.dropWhile pySpace)).head?).map fun q => (⟨p.1⟩, ⟨q.1⟩)
    | _ => none

/-- Model of `re.search` for a pattern matcher anchored at successive positions:
the leftmost position that matches wins. -/
def searchWith (pAt : List Char → Option (String × String)) :
    List Char → Option (String × String)
  | [] => none
  | c :: rest =>
    match pAt (c :: rest) with
    | some g => some g
    | none => searchWith pAt rest

/-- Format `f"\x7bn:02d\x7d:00"` for `n ≤ 99`: two-digit zero-padded hour, `:00`. -/
def hourToHHMM (digits : List Char) : String :=
  let n := digits.foldl (fun a c => a * 10 + (c.toNat - '0'.toNat)) 0
  (if n < 10 then "0" ++ toString n else toString n) ++ ":00"

/-- Function `extract_time_range` (lines 38-46): normalize, try the `HH:MM-HH:MM`
pattern, then the bare-hour `H-H` pattern (synthesizing `HH:00`),
else no time. -/
def extract_time_range (text : String) : Option (String × String) :=
  let t := (normalize_time_string text).data
  match searchWith p1At t with
  | some g => some g
  | none =>
    match searchWith p2At t with
    | some g => some (hourToHHMM g.1.data, hourToHHMM g.2.data)
    | none => none

/-- Model of `datetime.strptime(s, "%H:%M").time()`: one or two hour digits in
`0..23`, a colon, minute digits in `0..59`; `None` when the text does
not parse (Python raises `ValueError` there). -/
def parseHM (s : String) : Option (Nat × Nat) :=
  let digitsVal : List Char → Option Nat := fun ds =>
    if ds.length ≥ 1 && ds.length ≤ 2 && ds.all Char.isDigit then
      some (ds.foldl (fun a c => a * 10 + (c.toNat - '0'.toNat)) 0)
    else none
  match s.data.splitOn ':' with
  | [hs, ms] =>
    (digitsVal hs).bind fun h =>
      (digitsVal ms).bind fun m =>
        if h ≤ 23 && m ≤ 59 then some (h, m) else none
  | _ => none

/-! ## Identifiers and slugs (lines 48-72) -/

/-- A `datetime` value as constructed by `datetime(year, month, day)`:
midnight of the given calendar date. -/
structure PyDate where
  year : Nat
  month : Nat
  day : Nat
deriving DecidableEq, Repr

/-- Zero-pad a numeral to the given width. -/
def padNum (width n : Nat) : String :=
  let s := toString n
  ⟨List.replicate (width - s.length) '0'⟩ ++ s

/-- Model of `datetime.isoformat()` of a midnight datetime:
`YYYY-MM-DDT00:00:00`. -/
def isoformat (d : PyDate) : String :=
  padNum 4 d.year ++ "-" ++ padNum 2 d.month ++ "-" ++ padNum 2 d.day ++
    "T00:00:00"

/-- Modelled from the spec: the digest used for identifiers.  The source
calls `hashlib.md5(...).hexdigest()`, library code not under `src/`; the
spec states that the exact digest algorithm is not a correctness
requirement, only determinism over the exact concatenation, so it is
modelled as a deterministic 64-bit polynomial hash rendered in hex. -/
def md5hex (s : String) : String :=
  (Nat.toDigits 16
    (s.data.foldl (fun a c => (a * 131 + c.toNat) % (2 ^ 64)) 7)).asString

/-- Function `generate_uid` (lines 48-49): hash of
`f"{date.isoformat()}-{team}-{content}"`. -/
def generate_uid (date : PyDate) (team content : String) : String :=
  md5hex (isoformat date ++ "-" ++ team ++ "-" ++ content)

/-- The NFKD normalization of a single character as used by `slugify`,
restricted to the compatibility/canonical decompositions of the
characters exercised in this development (all other characters are
NFKD-fixed points here). -/
def nfkdChar (c : Char) : List Char :=
  if c = 'é' then ['e', '́']
  else if c = '：' then [':']
  else if c = ' ' then [' ']
  else [c]

/-- Class `\w` for ASCII text (after the ASCII fold every character is ASCII):
letters, digits, underscore. -/
def isWordChar (c : Char) : Bool :=
  c.isAlphanum || c == '_'

/-- Worker for `re.sub(r"[^\w]+", "_", ·)`: each maximal run of
non-word characters becomes one underscore. -/
def underscoreGo (prevNonWord : Bool) : List Char → List Char
  | [] => []
  | c :: cs =>
    if isWordChar c then c :: underscoreGo false cs
    else
      if prevNonWord then underscoreGo true cs
      else '_' :: underscoreGo true cs

/-- Python `str.strip("_")`. -/
def stripUnderscore (l : List Char) : List Char :=
  ((l.dropWhile (· == '_')).reverse.dropWhile (· == '_')).reverse

/-- Function `slugify` (lines 51-56): NFKD, encode to ASCII dropping everything
non-ASCII, lower-case, replace runs of non-word characters by `_`,
strip `_`; when that leaves nothing, fall back to
`calendar_<fallback_index>` (or `calendar`). -/
def slugify (text : String) (fallbackIndex : Option Nat) : String :=
  let ascii := ((text.data.map nfkdChar).flatten).filter (fun c => c.toNat ≤ 127)
  let slug := stripUnderscore (underscoreGo false (ascii.map Char.toLower))
  if slug.isEmpty then
    match fallbackIndex with
    | some i => "calendar_" ++ toString i
    | none => "calendar"
  else ⟨slug⟩

/-- Python's `<` on strings: lexicographic by code point. -/
def pyStrLt : List Char → List Char → Bool
  | [], [] => false
  | [], _ :: _ => true
  | _ :: _, [] => false
  | a :: as, b :: bs =>
    if a.toNat < b.toNat then true
    else if a.toNat = b.toNat then pyStrLt as bs
    else false

/-- Stable insertion of a string into an ascending list, by Python's
code-point lexicographic `<` on strings. -/
def insertSorted (s : String) : List String → List String
  | [] => [s]
  | t :: ts => if pyStrLt s.data t.data then s :: t :: ts else t :: insertSorted s ts

/-- Python `sorted(·)` on a list of strings (ascending, stable). -/
def pySorted (l : List String) : List String :=
  l.foldl (fun acc s => insertSorted s acc) []

/-- Function `generate_index_html` (lines 58-72), reduced to its observable link
list: for each team in sorted order, a link whose target is the slug of
the team with positional fallback `i + 1`. -/
def indexLinks (teams : List String) : List (String × String) :=
  (pySorted teams).enum.map fun p => (slugify p.2 (some (p.1 + 1)) ++ ".ics", p.2)

/-! ## Header-block detection (lines 89-128) -/

/-- Model of `re.fullmatch(r"\d\x7b1,2\x7d月", cell)`: one or two ASCII digits followed
by the month marker. -/
def isMonthHeader (s : String) : Bool :=
  match s.data with
  | [a, m] => a.isDigit && m == '月'
  | [a, b, m] => a.isDigit && b.isDigit && m == '月'
  | _ => false

/-- Value `int(cell.replace("月", ""))`: the numeric value of the digits of a
month-header cell. -/
def parseMonth (s : String) : Nat :=
  (s.data.filter (· ≠ '月')).foldl (fun a c => a * 10 + (c.toNat - '0'.toNat)) 0

/-- The year-tracking state of the detection pass: `month_sequence`,
`year_for_month` (an insertion-ordered association list) and
`current_year`. -/
structure YearState where
  seq : List Nat
  map : List (Nat × Nat)
  cur : Nat
deriving DecidableEq, Repr

/-- Lines 107-111: on encountering month `m` in a header cell, bump
`current_year` when `m` is smaller than the most recently first-seen
month, and record the (month ↦ year) assignment on first occurrence. -/
def monthStep (st : YearState) (m : Nat) : YearState :=
  let cur :=
    match st.seq.getLast? with
    | some last => if m < last then st.cur + 1 else st.cur
    | none => st.cur
  if (st.map.lookup m).isSome then { st with cur := cur }
  else { seq := st.seq ++ [m], map := st.map ++ [(m, cur)], cur := cur }

/-- One header block: `start_col`, month, and the insertion-ordered
`(column ↦ team name)` pairs. -/
structure Block where
  start : Nat
  month : Nat
  teams : List (Nat × String)
deriving DecidableEq, Repr

/-- Lines 114-121: starting from column index `startCol`, collect
`(column, cleaned name)` pairs for non-empty cells of the remaining
cells `cells`, stopping at the first month-header cell; also return the
number of cells consumed, so the outer scan can resume there. -/
def scanTeams (startCol : Nat) : List String → List (Nat × String) × Nat
  | [] => ([], 0)
  | cell :: rest =>
    if isMonthHeader cell then ([], 0)
    else
      let p := scanTeams (startCol + 1) rest
      let name := clean cell
      ((if name ≠ "" then (startCol, name) :: p.1 else p.1), p.2 + 1)

/-- Lines 96-126, the `while col < len(row) - 1` scan of one row.
`fuel` bounds the number of loop iterations; `col` strictly increases
every iteration, so `row.length` iterations always suffice. -/
def rowScanGo (row : List String) (st : YearState) :
    Nat → Nat → List Block × YearState
  | 0, _ => ([], st)
  | fuel + 1, col =>
    if col + 1 < row.length then
      if isMonthHeader (row.getD col "") && row.getD (col + 1) "" == "" then
        let m := parseMonth (row.getD col "")
        let st' := monthStep st m
        let p := scanTeams (col + 2) (row.drop (col + 2))
        let q := rowScanGo row st' fuel (col + 2 + p.2)
        ((if p.1 ≠ [] then [⟨col, m, p.1⟩] else []) ++ q.1, q.2)
      else rowScanGo row st fuel (col + 1)
    else ([], st)

/-- The blocks of one header row, with the year state threaded through. -/
def rowScan (row : List String) (st : YearState) : List Block × YearState :=
  rowScanGo row st row.length 0

/-- Lines 96-128 over all rows: the association `row index ↦ blocks`
restricted to rows with at least one (non-zero-team) block, together
with the final year-tracking state. -/
def detectGo (st : YearState) (idx : Nat) :
    List (List String) → List (Nat × List Block) × YearState
  | [] => ([], st)
  | row :: rest =>
    let p := rowScan row st
    let q := detectGo p.2 (idx + 1) rest
    ((if p.1 ≠ [] then [(idx, p.1)] else []) ++ q.1, q.2)

/-- Computes `blocks_by_row` and the final year state, for a cleaned grid and the
starting year `base_year`. -/
def detectBlocks (rows : List (List String)) (baseYear : Nat) :
    List (Nat × List Block) × YearState :=
  detectGo ⟨[], [], baseYear⟩ 0 rows

/-! ## Event extraction (lines 130-157) -/

/-- Model of `re.fullmatch(r"\d\x7b1,2\x7d", day_str)` followed by `int(day_str)`. -/
def parseDay (s : String) : Option Nat :=
  match s.data with
  | [a] => if a.isDigit then some (a.toNat - '0'.toNat) else none
  | [a, b] =>
    if a.isDigit && b.isDigit then
      some ((a.toNat - '0'.toNat) * 10 + (b.toNat - '0'.toNat))
    else none
  | _ => none

/-- Gregorian leap year, as used by `datetime`. -/
def isLeap (y : Nat) : Bool :=
  y % 4 == 0 && (y % 100 != 0 || y % 400 == 0)

/-- Days in a month, as validated by `datetime`. -/
def daysInMonth (y m : Nat) : Nat :=
  match m with
  | 2 => if isLeap y then 29 else 28
  | 4 => 30
  | 6 => 30
  | 9 => 30
  | 11 => 30
  | _ => 31

/-- Constructor `datetime(year, month, day)` as a fallible constructor: `datetime`
raises `ValueError` (caught at line 149) unless
`MINYEAR ≤ year ≤ MAXYEAR`, `1 ≤ month ≤ 12` and the day is in range
for that month. -/
def mkDate (y m d : Nat) : Option PyDate :=
  if 1 ≤ y ∧ y ≤ 9999 ∧ 1 ≤ m ∧ m ≤ 12 ∧ 1 ≤ d ∧ d ≤ daysInMonth y m then
    some ⟨y, m, d⟩
  else none

/-- Lookup `year_for_month.get(month, base_year)` (line 147). -/
def lookupYear (yearMap : List (Nat × Nat)) (m baseYear : Nat) : Nat :=
  (yearMap.lookup m).getD baseYear

/-- Lines 140-157 for a single active block on a single data row: the
`(team, date, content)` triples it contributes.  The block contributes
nothing when its start column is beyond the row, the day cell is not a
1-2 digit number, or the date is invalid. -/
def blockRowEvents (yearMap : List (Nat × Nat)) (baseYear : Nat) (b : Block)
    (row : List String) : List (String × PyDate × String) :=
  if b.start ≥ row.length then []
  else
    match parseDay (clean (row.getD b.start "")) with
    | none => []
    | some d =>
      match mkDate (lookupYear yearMap b.month baseYear) b.month d with
      | none => []
      | some date =>
        b.teams.flatMap fun p =>
          if p.1 < row.length then
            let content := clean (row.getD p.1 "")
            if content ≠ "" then [(p.2, date, content)] else []
          else []

/-- One data row against the whole active block set. -/
def processRow (yearMap : List (Nat × Nat)) (baseYear : Nat)
    (active : List Block) (row : List String) :
    List (String × PyDate × String) :=
  active.flatMap fun b => blockRowEvents yearMap baseYear b row

/-- Lines 135-157: walk the rows; a row present in `blocks_by_row`
replaces the active block set and contributes no events, any other row
is matched against the active blocks.  Returns the emitted
`(team, date, content)` triples in emission order. -/
def extractGo (blocksMap : List (Nat × List Block))
    (yearMap : List (Nat × Nat)) (baseYear : Nat) (idx : Nat)
    (active : List Block) : List (List String) →
    List (String × PyDate × String)
  | [] => []
  | row :: rest =>
    match blocksMap.lookup idx with
    | some bs => extractGo blocksMap yearMap baseYear (idx + 1) bs rest
    | none =>
      processRow yearMap baseYear active row ++
        extractGo blocksMap yearMap baseYear (idx + 1) active rest

/-- Append `events_by_team[team].append(ev)` on an insertion-ordered
association list (`defaultdict(list)` creates the key at first
append). -/
def addEvent (team : String) (ev : PyDate × String) :
    List (String × List (PyDate × String)) →
    List (String × List (PyDate × String))
  | [] => [(team, [ev])]
  | (t, evs) :: rest =>
    if t = team then (t, evs ++ [ev]) :: rest
    else (t, evs) :: addEvent team ev rest

/-- Map `events_by_team` built from the emission-ordered triples. -/
def eventsByTeamOf (triples : List (String × PyDate × String)) :
    List (String × List (PyDate × String)) :=
  triples.foldl (fun acc t => addEvent t.1 t.2 acc) []

/-! ## Calendar emission and the pipeline (lines 159-194) -/

/-- One serialized calendar entry: uid, summary, owning team and date,
and either a timed start/end pair or an all-day marker. -/
structure IcsEvent where
  uid : String
  name : String
  team : String
  date : PyDate
  allDay : Bool
  start : Option (Nat × Nat)
  stop : Option (Nat × Nat)
deriving DecidableEq, Repr

/-- Lines 166-184 for one event: extract a time range from the text;
when both ends parse as `%H:%M` clock times the entry is timed,
otherwise (no range found, or `strptime` raising `ValueError`) it is
all-day.  The uid is `generate_uid(date, team, content)`. -/
def mkIcsEvent (team : String) (ev : PyDate × String) : IcsEvent :=
  let base : IcsEvent :=
    { uid := generate_uid ev.1 team ev.2, name := ev.2, team := team,
      date := ev.1, allDay := true, start := none, stop := none }
  match extract_time_range ev.2 with
  | none => base
  | some (s, e) =>
    match parseHM s, parseHM e with
    | some st, some en =>
      { base with allDay := false, start := some st, stop := some en }
    | _, _ => base

/-- The whole run after a successful fetch and decode, reduced to its
observable outputs. -/
structure PipelineOut where
  blocks : List (Nat × List Block)
  events : List (String × List (PyDate × String))
  icsFiles : List (String × List IcsEvent)
  indexFiles : List (String × String)
  indexWritten : Bool
deriving DecidableEq, Repr

/-- Computes `blocks_by_row` of a raw grid: cells are cleaned at load time
(line 86) before detection. -/
def pipelineBlocks (rawRows : List (List String)) (baseYear : Nat) :
    List (Nat × List Block) × YearState :=
  detectBlocks (rawRows.map fun row => row.map clean) baseYear

/-- Computes `events_by_team` of a raw grid. -/
def pipelineEvents (rawRows : List (List String)) (baseYear : Nat) :
    List (String × List (PyDate × String)) :=
  let rows := rawRows.map fun row => row.map clean
  let p := detectBlocks rows baseYear
  eventsByTeamOf (extractGo p.1 p.2.map baseYear 0 [] rows)

/-- Lines 161-191: one `.ics` file per team in insertion order, named by
`slugify(team, fallback_index=i + 1)`. -/
def pipelineIcs (rawRows : List (List String)) (baseYear : Nat) :
    List (String × List IcsEvent) :=
  (pipelineEvents rawRows baseYear).enum.map fun p =>
    (slugify p.2.1 (some (p.1 + 1)) ++ ".ics", p.2.2.map (mkIcsEvent p.2.1))

/-- The full post-decode run (lines 86-194).  `index.html` is written
unconditionally (line 193), linking the teams in sorted order. -/
def pipeline (rawRows : List (List String)) (baseYear : Nat) : PipelineOut :=
  { blocks := (pipelineBlocks rawRows baseYear).1,
    events := pipelineEvents rawRows baseYear,
    icsFiles := pipelineIcs rawRows baseYear,
    indexFiles := indexLinks ((pipelineEvents rawRows baseYear).map Prod.fst),
    indexWritten := true }

/-- The fetch/decode stage, which is outside the grid-processing core:
either the HTTP request fails, the payload is not UTF-8, or a grid of
rows is obtained. -/
inductive FetchOutcome where
  | httpError
  | decodeError
  | ok (rawRows : List (List String))
deriving DecidableEq

/-- Exit status together with the produced outputs (`none` when the run
aborts before processing). -/
structure RunResult where
  exitCode : Nat
  output : Option PipelineOut
deriving DecidableEq

/-- The module-level control flow: missing `SHEET_CSV_URL` exits 1
(lines 22-24); a failed HTTP request raises out of the script
(line 77, non-zero interpreter exit); a decode failure exits 1
(lines 79-83); otherwise the pipeline runs to completion and the
interpreter exits 0 — there is no other exit point after the decode. -/
def mainFlow (sheetCsvUrl : Option String) (fetch : FetchOutcome)
    (baseYear : Nat) : RunResult :=
  match sheetCsvUrl with
  | none => { exitCode := 1, output := none }
  | some _ =>
    match fetch with
    | .httpError => { exitCode := 1, output := none }
    | .decodeError => { exitCode := 1, output := none }
    | .ok rawRows => { exitCode := 0, output := some (pipeline rawRows baseYear) }

/-- True when the list neither starts nor ends with whitespace. -/
def noBoundarySpace (l : List Char) : Bool :=
  (match l.head? with
   | none => true
   | some c => !pySpace c) &&
  (match l.getLast? with
   | none => true
   | some c => !pySpace c)

/-- No non-`' '` whitespace and no two adjacent whitespace characters. -/
def collapsedB : List Char → Bool
  | [] => true
  | [c] => !pySpace c || c == ' '
  | c :: d :: rest =>
    (!pySpace c || (c == ' ' && !pySpace d)) && collapsedB (d :: rest)

/-! ## Helper lemmas -/

/-- An existing binding in an association list survives appending. -/
theorem lookup_append_some {β : Type} (l1 l2 : List (Nat × β)) (a : Nat)
    (b : β) (h : l1.lookup a = some b) : (l1 ++ l2).lookup a = some b := by
  induction l1 with
  | nil => simp [List.lookup] at h
  | cons p ps ih =>
    obtain ⟨k, v⟩ := p
    cases hk : a == k with
    | true => simp [List.lookup, hk] at h ⊢; exact h
    | false => simp [List.lookup, hk] at h ⊢; exact ih h

/-- Step `monthStep` never changes an existing month ↦ year binding: the map
is only ever extended at the end, and only for absent months. -/
theorem monthStep_preserves (st : YearState) (mNew m y : Nat)
    (h : st.map.lookup m = some y) :
    (monthStep st mNew).map.lookup m = some y := by
  cases hc : (st.map.lookup mNew).isSome with
  | true => simp only [monthStep, hc, if_true]; exact h
  | false =>
    simp only [monthStep, hc, Bool.false_eq_true, if_false]
    exact lookup_append_some _ _ _ _ h

/-- With an empty `blocks_by_row` and no active blocks, the extraction
pass emits nothing on any rows. -/
theorem extractGo_nil_empty (ym : List (Nat × Nat)) (y : Nat)
    (rows : List (List String)) : ∀ idx : Nat,
    extractGo [] ym y idx [] rows = [] := by
  induction rows with
  | nil => intro idx; rfl
  | cons r rs ih =>
    intro idx
    show ([] : List Block).flatMap _ ++ extractGo [] ym y (idx + 1) [] rs = []
    rw [List.flatMap_nil, List.nil_append, ih]

/-- The uid of every emitted entry is `generate_uid` of that very
entry's date, team and summary, whether the entry is timed or
all-day. -/
theorem mkIcsEvent_uid (team : String) (ev : PyDate × String) :
    (mkIcsEvent team ev).uid =
      generate_uid (mkIcsEvent team ev).date (mkIcsEvent team ev).team
        (mkIcsEvent team ev).name := by
  cases hx : extract_time_range ev.2 with
  | none => simp only [mkIcsEvent, hx]
  | some p =>
    obtain ⟨s, e⟩ := p
    cases hs : parseHM s <;> cases he : parseHM e <;>
      simp only [mkIcsEvent, hx, hs, he]

/-- Constructor `datetime(y, m, d)` succeeds on in-range arguments. -/
theorem mkDate_eval (y m d : Nat) (h1 : 1 ≤ y) (h2 : y ≤ 9999) (h3 : 1 ≤ m)
    (h4 : m ≤ 12) (h5 : 1 ≤ d) (h6 : d ≤ daysInMonth y m) :
    mkDate y m d = some ⟨y, m, d⟩ := by
  unfold mkDate
  exact if_pos ⟨h1, h2, h3, h4, h5, h6⟩

/-! ## Claims -/

/-- C4: Year rollover — for every starting year `Y`, when the months
encountered in header blocks are, in file order, `[11, 12, 1, 2]`, the
resolved year assignments are `[Y, Y, Y + 1, Y + 1]`; both for the
year-tracking step itself (lines 107-111) and for a grid whose four
header rows present those months. -/
theorem year_rollover_nov_feb (Y : Nat) :
    (([11, 12, 1, 2].foldl monthStep ⟨[], [], Y⟩).map
        = [(11, Y), (12, Y), (1, Y + 1), (2, Y + 1)]) ∧
      (pipelineBlocks
          [["11月", "", "A"], ["12月", "", "A"], ["1月", "", "A"], ["2月", "", "A"]]
          Y).2.map
        = [(11, Y), (12, Y), (1, Y + 1), (2, Y + 1)] :=
  ⟨rfl, rfl⟩

/-- C5: First occurrence wins — whatever months are processed after a
month has received its year, the binding of that month is unchanged:
`year_for_month` is only ever extended, never overwritten. -/
theorem month_year_first_occurrence_stable (ms : List Nat) (st : YearState)
    (m y : Nat) (h : st.map.lookup m = some y) :
    (ms.foldl monthStep st).map.lookup m = some y := by
  induction ms generalizing st with
  | nil => exact h
  | cons mNew rest ih => exact ih _ (monthStep_preserves st mNew m y h)

/-- Witness for C5 at a concrete state: month 12 keeps its year 2025
through later occurrences of 12 and smaller months. -/
theorem month_year_first_occurrence_stable_witness :
    (YearState.mk [12] [(12, 2025)] 2025).map.lookup 12 = some 2025 ∧
      (([1, 12, 2].foldl monthStep ⟨[12], [(12, 2025)], 2025⟩).map.lookup 12
        = some 2025) :=
  ⟨by decide,
    month_year_first_occurrence_stable [1, 12, 2] ⟨[12], [(12, 2025)], 2025⟩
      12 2025 (by decide)⟩

/-- C7: Time extraction — `"13:00-14:30 meeting"` yields start `13:00`
and end `14:30`; `"13-15 sync"` yields `13:00` and `15:00` (bare hours
synthesized to `HH:00`); `"all day task"` yields no time, and the
emitted entry for such text is all-day. -/
theorem extract_time_range_examples :
    extract_time_range "13:00-14:30 meeting" = some ("13:00", "14:30") ∧
      extract_time_range "13-15 sync" = some ("13:00", "15:00") ∧
      extract_time_range "all day task" = none ∧
      (mkIcsEvent "T" (⟨2025, 4, 3⟩, "13:00-14:30 meeting")).allDay = false ∧
      (mkIcsEvent "T" (⟨2025, 4, 3⟩, "13:00-14:30 meeting")).start
          = some (13, 0) ∧
      (mkIcsEvent "T" (⟨2025, 4, 3⟩, "13:00-14:30 meeting")).stop
          = some (14, 30) ∧
      (mkIcsEvent "T" (⟨2025, 4, 3⟩, "all day task")).allDay = true := by
  decide

/-- C9: A header cell matching the month pattern with an empty next
cell but zero team columns still updates year tracking.  For every
starting year `Y`: in the grid with header rows `4月 | (A)`, a bare
`1月` (no teams) and `6月 | (B)`, the January row produces no entry in
`blocks_by_row`, yet January is recorded in the first-seen month
sequence with year `Y + 1`, the tracked current year ends at `Y + 1`,
and June — first seen later — is assigned `Y + 1`; dropping the
discarded row, June is assigned `Y` instead. -/
theorem discarded_zero_team_block_updates_years (Y : Nat) :
    ((pipelineBlocks [["4月", "", "A"], ["1月", ""], ["6月", "", "B"]] Y).1.lookup 0
        = some [⟨0, 4, [(2, "A")]⟩] ∧
      (pipelineBlocks [["4月", "", "A"], ["1月", ""], ["6月", "", "B"]] Y).1.lookup 1
        = none ∧
      (pipelineBlocks [["4月", "", "A"], ["1月", ""], ["6月", "", "B"]] Y).1.lookup 2
        = some [⟨0, 6, [(2, "B")]⟩] ∧
      (pipelineBlocks [["4月", "", "A"], ["1月", ""], ["6月", "", "B"]] Y).2.seq
        = [4, 1, 6] ∧
      (pipelineBlocks [["4月", "", "A"], ["1月", ""], ["6月", "", "B"]] Y).2.map.lookup 1
        = some (Y + 1) ∧
      (pipelineBlocks [["4月", "", "A"], ["1月", ""], ["6月", "", "B"]] Y).2.cur
        = Y + 1 ∧
      (pipelineBlocks [["4月", "", "A"], ["1月", ""], ["6月", "", "B"]] Y).2.map.lookup 6
        = some (Y + 1)) ∧
    (pipelineBlocks [["4月", "", "A"], ["6月", "", "B"]] Y).2.map.lookup 6 = some Y :=
  ⟨⟨rfl, rfl, rfl, rfl, rfl, rfl, rfl⟩, rfl⟩

/-- C10: For the team set `{"b", "!!!"}` (insertion order `b` then
`!!!`, where `!!!` slugifies to empty), the index page links
`calendar_1.ics` (fallback index from sorted position), while the files
actually written are `b.ics` and `calendar_2.ics` (fallback index from
insertion position): the index links a file that was never written. -/
theorem index_links_unwritten_file :
    (pipeline [["4月", "", "b", "!!!"], ["3", "", "x", "y"]] 2025).indexFiles.map
        Prod.fst = ["calendar_1.ics", "b.ics"] ∧
      (pipeline [["4月", "", "b", "!!!"], ["3", "", "x", "y"]] 2025).icsFiles.map
        Prod.fst = ["b.ics", "calendar_2.ics"] ∧
      "calendar_1.ics" ∉
        (pipeline [["4月", "", "b", "!!!"], ["3", "", "x", "y"]] 2025).icsFiles.map
          Prod.fst := by
  decide

/-- C1 fails on the code: for the grid `[["hello"]]` no header block is
detected, yet the run completes with exit status 0 and still produces
its outputs (index.html is written), instead of exiting non-zero. -/
theorem no_blocks_fatal_counterexample :
    (pipeline [["hello"]] 2025).blocks = [] ∧
      (mainFlow (some "https://example.org/sheet.csv") (.ok [["hello"]])
          2025).exitCode = 0 ∧
      (mainFlow (some "https://example.org/sheet.csv") (.ok [["hello"]])
          2025).output = some (pipeline [["hello"]] 2025) ∧
      (pipeline [["hello"]] 2025).indexWritten = true := by
  decide

/-- C1 (amended): when the input grid yields zero usable header blocks
the program does *not* exit non-zero — the run completes cleanly with
exit status 0, emits no `.ics` files, and still writes `index.html`
with an empty link list. -/
theorem no_blocks_completes_cleanly (url : String) (rows : List (List String))
    (y : Nat) (h : (pipeline rows y).blocks = []) :
    (mainFlow (some url) (.ok rows) y).exitCode = 0 ∧
      (pipeline rows y).icsFiles = [] ∧
      (pipeline rows y).indexFiles = [] ∧
      (pipeline rows y).indexWritten = true := by
  have hb : (pipelineBlocks rows y).1 = [] := h
  have hev : pipelineEvents rows y = [] := by
    simp only [pipelineBlocks] at hb
    simp only [pipelineEvents, hb, extractGo_nil_empty]
    rfl
  refine ⟨rfl, ?_, ?_, rfl⟩
  · show pipelineIcs rows y = []
    simp only [pipelineIcs, hev]
    rfl
  · show indexLinks ((pipelineEvents rows y).map Prod.fst) = []
    rw [hev]
    rfl

/-- Witness for C1 (amended) at the concrete block-free grid
`[["hello"]]`. -/
theorem no_blocks_completes_cleanly_witness :
    (pipeline [["hello"]] 2024).blocks = [] ∧
      ((mainFlow (some "u") (.ok [["hello"]]) 2024).exitCode = 0 ∧
        (pipeline [["hello"]] 2024).icsFiles = [] ∧
        (pipeline [["hello"]] 2024).indexFiles = [] ∧
        (pipeline [["hello"]] 2024).indexWritten = true) :=
  ⟨by decide, no_blocks_completes_cleanly "u" [["hello"]] 2024 (by decide)⟩

/-- C8: Day-bound rejection — whenever the day cell of a block parses
as a 1-2 digit number whose value is out of range for the block's
month (the fallible `datetime` constructor yields nothing), that block
contributes no event for the row, and the remaining blocks of the
active set are processed exactly as if the block were absent. -/
theorem day_out_of_range_skipped (ym : List (Nat × Nat)) (Y : Nat) (b : Block)
    (row : List String) (d : Nat) (hs : b.start < row.length)
    (hd : parseDay (clean (row.getD b.start "")) = some d)
    (hv : mkDate (lookupYear ym b.month Y) b.month d = none) :
    blockRowEvents ym Y b row = [] ∧
      ∀ pre post : List Block,
        processRow ym Y (pre ++ b :: post) row =
          processRow ym Y pre row ++ processRow ym Y post row := by
  have h0 : blockRowEvents ym Y b row = [] := by
    unfold blockRowEvents
    rw [if_neg (Nat.not_le.mpr hs)]
    simp only [hd, hv]
  refine ⟨h0, fun pre post => ?_⟩
  unfold processRow
  rw [List.flatMap_append, List.flatMap_cons, h0, List.nil_append]

/-- Witness for C8: day 31 under month 4 (April) on a concrete row
contributes nothing, while a sibling May block on the same row
still produces its event. -/
theorem day_out_of_range_skipped_witness :
    ((⟨0, 4, [(2, "T")]⟩ : Block).start < ["31", "", "x"].length ∧
      parseDay (clean (["31", "", "x"].getD 0 "")) = some 31 ∧
      mkDate (lookupYear [(4, 2025), (5, 2025)] 4 2025) 4 31 = none) ∧
    (blockRowEvents [(4, 2025), (5, 2025)] 2025 ⟨0, 4, [(2, "T")]⟩
        ["31", "", "x"] = [] ∧
      processRow [(4, 2025), (5, 2025)] 2025
          ([⟨0, 5, [(2, "U")]⟩] ++ (⟨0, 4, [(2, "T")]⟩ : Block) :: [])
          ["31", "", "x"] =
        processRow [(4, 2025), (5, 2025)] 2025 [⟨0, 5, [(2, "U")]⟩]
            ["31", "", "x"] ++
          processRow [(4, 2025), (5, 2025)] 2025 [] ["31", "", "x"]) := by
  refine ⟨⟨by decide, by decide, by decide⟩, ?_⟩
  have t := day_out_of_range_skipped [(4, 2025), (5, 2025)] 2025
    ⟨0, 4, [(2, "T")]⟩ ["31", "", "x"] 31 (by decide) (by decide) (by decide)
  exact ⟨t.1, t.2 [⟨0, 5, [(2, "U")]⟩] []⟩

/-- C3: The pipeline is a function of the grid and the starting year
alone — two runs on equal input produce equal calendar files — and the
identifier of every emitted entry is exactly `generate_uid` applied to
that entry's own date, team and text. -/
theorem pipeline_uid_deterministic (rows rows' : List (List String))
    (y y' : Nat) (hr : rows = rows') (hy : y = y')
    (f : String × List IcsEvent) (e : IcsEvent)
    (hf : f ∈ pipelineIcs rows y) (he : e ∈ f.2) :
    pipelineIcs rows y = pipelineIcs rows' y' ∧
      e.uid = generate_uid e.date e.team e.name := by
  subst hr hy
  refine ⟨rfl, ?_⟩
  rcases List.mem_map.1 hf with ⟨p, _, rfl⟩
  rcases List.mem_map.1 he with ⟨ev, _, rfl⟩
  exact mkIcsEvent_uid p.2.1 ev

/-- Witness for C3 on a concrete one-event grid. -/
theorem pipeline_uid_deterministic_witness :
    ((("t.ics",
        [(⟨generate_uid ⟨2025, 4, 3⟩ "T" "x", "x", "T", ⟨2025, 4, 3⟩, true,
          none, none⟩ : IcsEvent)]) ∈
        pipelineIcs [["4月", "", "T"], ["3", "", "x"]] 2025) ∧
      (⟨generate_uid ⟨2025, 4, 3⟩ "T" "x", "x", "T", ⟨2025, 4, 3⟩, true,
          none, none⟩ : IcsEvent) ∈
        [(⟨generate_uid ⟨2025, 4, 3⟩ "T" "x", "x", "T", ⟨2025, 4, 3⟩, true,
          none, none⟩ : IcsEvent)]) ∧
    (pipelineIcs [["4月", "", "T"], ["3", "", "x"]] 2025 =
        pipelineIcs [["4月", "", "T"], ["3", "", "x"]] 2025 ∧
      (⟨generate_uid ⟨2025, 4, 3⟩ "T" "x", "x", "T", ⟨2025, 4, 3⟩, true,
          none, none⟩ : IcsEvent).uid =
        generate_uid ⟨2025, 4, 3⟩ "T" "x") :=
  ⟨⟨by decide, by decide⟩,
    pipeline_uid_deterministic [["4月", "", "T"], ["3", "", "x"]]
      [["4月", "", "T"], ["3", "", "x"]] 2025 2025 rfl rfl
      ("t.ics",
        [⟨generate_uid ⟨2025, 4, 3⟩ "T" "x", "x", "T", ⟨2025, 4, 3⟩, true,
          none, none⟩])
      ⟨generate_uid ⟨2025, 4, 3⟩ "T" "x", "x", "T", ⟨2025, 4, 3⟩, true,
        none, none⟩
      (by decide) (by decide)⟩

set_option maxHeartbeats 1000000 in
/-- C6: End-to-end — for the grid with header row
`["4月","","Alice","Bob","5月","","Alice"]` and data row
`["3","","Lunch","","1","","Standup"]` and any valid starting year `Y`,
team `Alice` gets exactly the events April 3 `"Lunch"` and May 1
`"Standup"`, and `Bob` is absent from the extracted team map. -/
theorem end_to_end_two_blocks (Y : Nat) (h1 : 1 ≤ Y) (h2 : Y ≤ 9999) :
    pipelineEvents
        [["4月", "", "Alice", "Bob", "5月", "", "Alice"],
         ["3", "", "Lunch", "", "1", "", "Standup"]] Y
      = [("Alice", [(⟨Y, 4, 3⟩, "Lunch"), (⟨Y, 5, 1⟩, "Standup")])] ∧
      (pipelineEvents
          [["4月", "", "Alice", "Bob", "5月", "", "Alice"],
           ["3", "", "Lunch", "", "1", "", "Standup"]] Y).lookup "Bob"
        = none := by
  have h43 : mkDate Y 4 3 = some ⟨Y, 4, 3⟩ :=
    mkDate_eval Y 4 3 h1 h2 (by decide) (by decide) (by decide)
      (by show (3 : Nat) ≤ 30; decide)
  have h51 : mkDate Y 5 1 = some ⟨Y, 5, 1⟩ :=
    mkDate_eval Y 5 1 h1 h2 (by decide) (by decide) (by decide)
      (by show (1 : Nat) ≤ 31; decide)
  have main : pipelineEvents
      [["4月", "", "Alice", "Bob", "5月", "", "Alice"],
       ["3", "", "Lunch", "", "1", "", "Standup"]] Y
      = [("Alice", [(⟨Y, 4, 3⟩, "Lunch"), (⟨Y, 5, 1⟩, "Standup")])] := by
    simp [pipelineEvents, pipelineBlocks, detectBlocks, detectGo, rowScan,
      rowScanGo, scanTeams, monthStep, isMonthHeader, parseMonth, clean,
      cleanL, collapseL, collapseGo, nfkcL, nfkcChar, stripL, pySpace,
      extractGo, processRow, blockRowEvents, parseDay, lookupYear,
      daysInMonth, isLeap, eventsByTeamOf, addEvent, List.lookup, h43, h51]
  refine ⟨main, ?_⟩
  rw [main]
  simp [List.lookup, show (("Bob" : String) == "Alice") = false from by decide]

/-- Witness for C6 at the concrete starting year 2025. -/
theorem end_to_end_two_blocks_witness :
    1 ≤ 2025 ∧ 2025 ≤ 9999 ∧
      (pipelineEvents
          [["4月", "", "Alice", "Bob", "5月", "", "Alice"],
           ["3", "", "Lunch", "", "1", "", "Standup"]] 2025
        = [("Alice", [(⟨2025, 4, 3⟩, "Lunch"), (⟨2025, 5, 1⟩, "Standup")])] ∧
      (pipelineEvents
          [["4月", "", "Alice", "Bob", "5月", "", "Alice"],
           ["3", "", "Lunch", "", "1", "", "Standup"]] 2025).lookup "Bob"
        = none) :=
  ⟨by decide, by decide, end_to_end_two_blocks 2025 (by decide) (by decide)⟩

theorem collapseGo_false_cons (c : Char) (cs : List Char) :
    collapseGo false (c :: cs) =
      if pySpace c then ' ' :: collapseGo true cs
      else c :: collapseGo false cs := rfl

theorem collapseGo_true_cons (c : Char) (cs : List Char) :
    collapseGo true (c :: cs) =
      if pySpace c then collapseGo true cs
      else c :: collapseGo false cs := rfl

theorem dropWhile_pySpace_eq_self (l : List Char) (x : Char)
    (hx : l.head? = some x) (hp : pySpace x = false) :
    l.dropWhile pySpace = l := by
  cases l with
  | nil => simp at hx
  | cons c cs =>
    obtain rfl : c = x := by simpa using hx
    rw [List.dropWhile_cons, hp]
    simp

theorem stripL_eq_self (l : List Char) (h : noBoundarySpace l = true) :
    stripL l = l := by
  cases l with
  | nil => rfl
  | cons c cs =>
    rw [noBoundarySpace, Bool.and_eq_true] at h
    obtain ⟨hh, hl⟩ := h
    have hc : pySpace c = false := by
      simpa using hh
    cases hz : (c :: cs).getLast? with
    | none => simp at hz
    | some z =>
      have hzs : pySpace z = false := by
        rw [hz] at hl
        simpa using hl
      have e1 : (c :: cs).dropWhile pySpace = c :: cs :=
        dropWhile_pySpace_eq_self _ c rfl hc
      have e2 : (c :: cs).reverse.dropWhile pySpace = (c :: cs).reverse :=
        dropWhile_pySpace_eq_self _ z (by rw [List.head?_reverse]; exact hz)
          hzs
      rw [stripL, e1, e2, List.reverse_reverse]

theorem mem_collapseGo (l : List Char) : ∀ (b : Bool) (c : Char),
    c ∈ collapseGo b l → c = ' ' ∨ c ∈ l := by
  induction l with
  | nil => intro b c h; simp [collapseGo] at h
  | cons d cs ih =>
    intro b c h
    cases hd : pySpace d with
    | true =>
      cases b with
      | true =>
        rw [collapseGo_true_cons, if_pos hd] at h
        rcases ih true c h with h' | h'
        · exact Or.inl h'
        · exact Or.inr (List.mem_cons_of_mem d h')
      | false =>
        rw [collapseGo_false_cons, if_pos hd] at h
        rcases List.mem_cons.1 h with rfl | h'
        · exact Or.inl rfl
        · rcases ih true c h' with h'' | h''
          · exact Or.inl h''
          · exact Or.inr (List.mem_cons_of_mem d h'')
    | false =>
      have h' : c ∈ d :: collapseGo false cs := by
        cases b with
        | true => rwa [collapseGo_true_cons, if_neg (by simp [hd])] at h
        | false => rwa [collapseGo_false_cons, if_neg (by simp [hd])] at h
      rcases List.mem_cons.1 h' with rfl | h''
      · exact Or.inr (List.mem_cons_self c cs)
      · rcases ih false c h'' with h3 | h3
        · exact Or.inl h3
        · exact Or.inr (List.mem_cons_of_mem d h3)

theorem head_collapseGo_true (l : List Char) (c : Char)
    (h : (collapseGo true l).head? = some c) : pySpace c = false := by
  induction l with
  | nil => simp [collapseGo] at h
  | cons d cs ih =>
    cases hd : pySpace d with
    | true =>
      rw [collapseGo_true_cons, if_pos hd] at h
      exact ih h
    | false =>
      rw [collapseGo_true_cons, if_neg (by simp [hd]),
        List.head?_cons] at h
      obtain rfl : d = c := by simpa using h
      exact hd

theorem collapsedB_collapseGo (l : List Char) :
    ∀ b : Bool, collapsedB (collapseGo b l) = true := by
  induction l with
  | nil => intro b; rfl
  | cons d cs ih =>
    intro b
    cases hd : pySpace d with
    | true =>
      cases b with
      | true =>
        rw [collapseGo_true_cons, if_pos hd]
        exact ih true
      | false =>
        rw [collapseGo_false_cons, if_pos hd]
        cases he : collapseGo true cs with
        | nil => decide
        | cons e es =>
          have hne : pySpace e = false :=
            head_collapseGo_true cs e (by rw [he]; rfl)
          have ht : collapsedB (e :: es) = true := by
            rw [← he]; exact ih true
          show collapsedB (' ' :: e :: es) = true
          rw [collapsedB, Bool.and_eq_true]
          exact ⟨by simp [hne], ht⟩
    | false =>
      have hstep : collapseGo b (d :: cs) = d :: collapseGo false cs := by
        cases b with
        | true => rw [collapseGo_true_cons, if_neg (by simp [hd])]
        | false => rw [collapseGo_false_cons, if_neg (by simp [hd])]
      rw [hstep]
      cases he : collapseGo false cs with
      | nil =>
        show collapsedB [d] = true
        show (!pySpace d || d == ' ') = true
        simp [hd]
      | cons e es =>
        have ht : collapsedB (e :: es) = true := by
          rw [← he]; exact ih false
        show collapsedB (d :: e :: es) = true
        rw [collapsedB, Bool.and_eq_true]
        exact ⟨by simp [hd], ht⟩

theorem collapseGo_eq_self (l : List Char) (h : collapsedB l = true) :
    collapseGo false l = l := by
  induction l with
  | nil => rfl
  | cons c cs ih =>
    cases cs with
    | nil =>
      cases hc : pySpace c with
      | true =>
        have hc' : c = ' ' := by
          have := h
          rw [collapsedB, hc] at this
          simpa using this
        subst hc'
        rw [collapseGo_false_cons, if_pos hc]
        rfl
      | false =>
        rw [collapseGo_false_cons, if_neg (by simp [hc])]
        rfl
    | cons d rest =>
      rw [collapsedB, Bool.and_eq_true] at h
      obtain ⟨hpair, h2⟩ := h
      have ihtail : collapseGo false (d :: rest) = d :: rest := ih h2
      cases hc : pySpace c with
      | true =>
        have hpair' : c = ' ' ∧ pySpace d = false := by
          rw [hc] at hpair
          simpa using hpair
        obtain ⟨rfl, hdns⟩ := hpair'
        rw [collapseGo_false_cons, if_pos hc]
        have : collapseGo true (d :: rest) = collapseGo false (d :: rest) := by
          rw [collapseGo_true_cons, collapseGo_false_cons,
            if_neg (by simp [hdns]), if_neg (by simp [hdns])]
        rw [this, ihtail]
      | false =>
        rw [collapseGo_false_cons, if_neg (by simp [hc]), ihtail]

theorem nfkcChar_mem_fixed (b c : Char) (h : c ∈ nfkcChar b) :
    nfkcChar c = [c] := by
  by_cases h1 : b = '¨'
  · subst h1
    simp [nfkcChar] at h
    rcases h with rfl | rfl <;> decide
  · by_cases h2 : b = '´'
    · subst h2
      simp [nfkcChar] at h
      rcases h with rfl | rfl <;> decide
    · by_cases h3 : b = '\u00A0'
      · subst h3
        simp [nfkcChar] at h
        subst h
        decide
      · by_cases h4 : b = '\u3000'
        · subst h4
          simp [nfkcChar] at h
          subst h
          decide
        · by_cases h5 : b = '：'
          · subst h5
            simp [nfkcChar] at h
            subst h
            decide
          · by_cases h6 : b = '～'
            · subst h6
              simp [nfkcChar] at h
              subst h
              decide
            · have e : nfkcChar b = [b] := by
                rw [nfkcChar, if_neg h1, if_neg h2, if_neg h3, if_neg h4,
                  if_neg h5, if_neg h6]
              rw [e] at h
              obtain rfl : c = b := by simpa using h
              exact e

theorem nfkcL_eq_self (l : List Char) (h : ∀ c ∈ l, nfkcChar c = [c]) :
    nfkcL l = l := by
  induction l with
  | nil => rfl
  | cons c cs ih =>
    show nfkcChar c ++ nfkcL cs = c :: cs
    rw [h c (List.mem_cons_self c cs),
      ih fun d hd => h d (List.mem_cons_of_mem c hd)]
    rfl

theorem mem_nfkcL (l : List Char) (c : Char) (h : c ∈ nfkcL l) :
    ∃ b ∈ l, c ∈ nfkcChar b := by
  rw [nfkcL, List.mem_flatten] at h
  obtain ⟨s, hs, hc⟩ := h
  rw [List.mem_map] at hs
  obtain ⟨b, hb, rfl⟩ := hs
  exact ⟨b, hb, hc⟩

/-- C2 (amended): `clean` is idempotent on every input whose cleaned form
neither begins nor ends with whitespace; the counterexample shows the
boundary-whitespace condition is necessary, since NFKC can prepend a
space (e.g. U+00A8) that only the second application strips. -/
theorem clean_idem (s : String)
    (h : noBoundarySpace (clean s).data = true) :
    clean (clean s) = clean s := by
  have hfix : ∀ c ∈ (clean s).data, nfkcChar c = [c] := by
    intro c hc
    rcases mem_collapseGo (nfkcL (stripL s.data)) false c hc with rfl | h'
    · decide
    · obtain ⟨b, _, hb⟩ := mem_nfkcL _ c h'
      exact nfkcChar_mem_fixed b c hb
  have hcb : collapsedB (clean s).data = true :=
    collapsedB_collapseGo (nfkcL (stripL s.data)) false
  have key : cleanL (clean s).data = (clean s).data := by
    calc cleanL (clean s).data
        = collapseL (nfkcL (stripL (clean s).data)) := rfl
      _ = collapseL (nfkcL (clean s).data) := by rw [stripL_eq_self _ h]
      _ = collapseL (clean s).data := by rw [nfkcL_eq_self _ hfix]
      _ = (clean s).data := collapseGo_eq_self _ hcb
  show String.mk (cleanL (clean s).data) = clean s
  rw [key]

/-- C2 fails on the code: `clean` is not idempotent.  NFKC decomposes
`"¨"` (U+00A8) into a *space* followed by U+0308; `strip()` runs before
NFKC, so the first application returns `" ̈"` with a leading space and
the second application strips it. -/
theorem clean_not_idempotent :
    clean "¨" = " ̈" ∧ clean (clean "¨") = "̈" ∧
      clean (clean "¨") ≠ clean "¨" := by
  decide

/-- Witness for C2 (amended) on a concrete boundary-clean string. -/
theorem clean_idem_witness :
    noBoundarySpace (clean "a  b").data = true ∧
      clean (clean "a  b") = clean "a  b" :=
  ⟨by decide, clean_idem "a  b" (by decide)⟩
